import Mathlib

/-!
Verification of the layered raster drawing engine of `js/cbcanvas_node.js`
(Comfyui-CBcanvas): the `Layer`, `LayerManager` and `HistoryManager` classes
plus the pointer-event drawing handlers and the export path.

Embedding conventions:
* JavaScript numbers are modelled as `ℚ` wherever the program only moves them
  around or compares them; the one genuinely real-valued operation,
  `Math.pow(pressure, 1 / pressureSensitivity)` inside `Layer.drawStroke`,
  is modelled with real exponentiation (`Real.rpow`), so computed stroke
  widths live in `ℝ`.
* A layer's offscreen canvas is modelled by the journal of painting commands
  applied to it (`List PaintCmd`); a freshly created canvas (cleared, hence
  fully transparent) is the empty journal.  `toDataURL` encodes that content
  losslessly (PNG), `fromDataURL` decodes it; the `clearRect` + full-canvas
  `drawImage` in `Layer.fromDataURL` replaces the canvas content with the
  decoded image, modelled as direct replacement of the content value.
* Pixel-level compositing (`exportCanvasWithAlpha`) is modelled separately,
  pixelwise, on the per-layer pixel data that `drawImage` consumes, with
  canvas `source-over` blending and `globalAlpha`.
* JavaScript array indices are `ℤ` (they can be `-1`), and JS idioms
  (`x || default`, `Array.prototype.splice`, `slice`) are modelled by small
  helper functions that reproduce their semantics at the call sites.
* The fabric.js display canvas is render-only: `updateComposite` repaints it
  from the layer buffers but mutates no layer or history state, so it is not
  part of the state model (its pixel function is the same as the export's).
-/

namespace CBCanvas

/-- CSS color value produced by `hexToRgba(hex, alpha)`: the string
`rgba(r, g, b, alpha)` with channels parsed from the hex string.  The claims
never inspect the channels and float-to-string formatting is not
representable, so the value is modelled as the constructor arguments. -/
structure JsColor where
  hex : String
  alpha : ℚ
deriving DecidableEq, Repr

/-- The `hexToRgba` conversion of `cbcanvas_node.js` (line 470). -/
def hexToRgba (hex : String) (alpha : ℚ) : JsColor := ⟨hex, alpha⟩

/-- One pointer sample pushed on `node.currentStroke`:
`{ x: pointer.x, y: pointer.y, pressure }`. -/
structure StrokePoint where
  x : ℚ
  y : ℚ
  pressure : ℚ
deriving DecidableEq, Repr

/-- JavaScript `a || b` on a number `a` (the only falsy number that occurs
here is `0`). -/
def jsOrQ (a b : ℚ) : ℚ := if a = 0 then b else a

/-- JavaScript `a || b` on an integer (used for `json.activeLayerIndex || 0`). -/
def jsOrZ (a b : ℤ) : ℤ := if a = 0 then b else a

/-- The `Math.pow` call of `drawStroke`: real exponentiation. -/
noncomputable def jsPow (x y : ℝ) : ℝ := Real.rpow x y

/-- Effective width of one stroke segment (`drawStroke`, lines 86-89):
`pressure_i = Math.pow(p_i.pressure || 1.0, 1 / pressureSensitivity)`,
`strokeWidth = Math.max(1, width * (pressure1 + pressure2) / 2)`. -/
noncomputable def segWidth (width sens : ℚ) (p1 p2 : ℚ) : ℝ :=
  max 1 ((width : ℝ) *
    ((jsPow (jsOrQ p1 1 : ℚ) (1 / (sens : ℝ)) + jsPow (jsOrQ p2 1 : ℚ) (1 / (sens : ℝ))) / 2))

/-- One painting command recorded on a layer's offscreen canvas context. -/
inductive PaintCmd where
  /-- A `source-over` line segment of `drawStroke` (round cap/join, given
  color, pressure-derived width). -/
  | seg (x1 y1 x2 y2 : ℚ) (color : JsColor) (width : ℝ)
  /-- A `destination-out` line segment of `erase` (round cap/join). -/
  | eraseSeg (x1 y1 x2 y2 : ℚ) (width : ℚ)
  /-- A `drawImage` blit of another canvas content at the given
  `globalAlpha` (used by `mergeDown`). -/
  | image (content : List PaintCmd) (alpha : ℚ)

/-- A `Layer` object (lines 48-160): metadata plus the content of its
offscreen canvas.  `fabricImage` is display-only and omitted; the canvas
dimensions always equal the fabric canvas's and are tracked there. -/
structure Layer where
  id : ℚ
  name : String
  visible : Bool
  opacity : ℚ
  locked : Bool
  buffer : List PaintCmd

/-- The `new Layer(width, height, name)` constructor: visible, opacity 1,
unlocked, cleared (fully transparent) canvas. -/
def Layer.mk' (id : ℚ) (name : String) : Layer :=
  { id := id, name := name, visible := true, opacity := 1, locked := false, buffer := [] }

/-- The `Layer.drawStroke(points, color, width, pressureSensitivity)` method
(lines 72-97): no-op for fewer than 2 points, otherwise one `source-over`
segment per consecutive sample pair, each with its pressure-derived width. -/
noncomputable def Layer.drawStroke (l : Layer) (points : List StrokePoint)
    (color : JsColor) (width sens : ℚ) : Layer :=
  if points.length < 2 then l
  else { l with buffer := l.buffer ++
    (points.zip points.tail).map fun q =>
      PaintCmd.seg q.1.x q.1.y q.2.x q.2.y color (segWidth width sens q.1.pressure q.2.pressure) }

/-- The `Layer.erase(points, width)` method (lines 102-122): no-op for fewer
than 2 points, otherwise one `destination-out` segment per pair; the
composite operation is restored to `source-over` afterwards. -/
def Layer.erase (l : Layer) (points : List StrokePoint) (width : ℚ) : Layer :=
  if points.length < 2 then l
  else { l with buffer := l.buffer ++
    (points.zip points.tail).map fun q => PaintCmd.eraseSeg q.1.x q.1.y q.2.x q.2.y width }

/-- The `Layer.clear()` method: `clearRect` over the whole canvas, i.e. the
content becomes fully transparent again. -/
def Layer.clear (l : Layer) : Layer := { l with buffer := [] }

/-- An `image/png` data URL: either a lossless encoding of some canvas
content (what `canvas.toDataURL('image/png')` produces) or data the browser
image decoder rejects. -/
inductive DataURL where
  | png (content : List PaintCmd)
  | corrupt

/-- Browser image decoding of a data URL, as observed through `new Image()`:
`onload` fires with the decoded content, or never fires. -/
def decodeImage : DataURL → Option (List PaintCmd)
  | DataURL.png c => some c
  | DataURL.corrupt => none

/-- The `Layer.toDataURL()` method: lossless PNG encoding of the content. -/
def Layer.toDataURL (l : Layer) : DataURL := DataURL.png l.buffer

/-- Serialized form of one layer inside `LayerManager.toJSON()` (lines
311-318): `{id, name, visible, opacity, locked, data}`. -/
structure LayerJson where
  id : ℚ
  name : String
  visible : Bool
  opacity : ℚ
  locked : Bool
  data : DataURL

/-- Serialized form of the whole stack, `LayerManager.toJSON()` (lines
309-321): `{layers: [...], activeLayerIndex}`. -/
structure LMJson where
  layers : List LayerJson
  activeLayerIndex : ℤ

/-- The `LayerManager` state (lines 165-355): the ordered layer list
(bottom to top) and the active layer index.  The fabric display canvas it
repaints is render-only and carries no engine state. -/
structure LayerManager where
  layers : List Layer
  activeLayerIndex : ℤ

namespace LayerManager

/-- JavaScript `array[i]` on the layer list: `undefined` for a negative or
out-of-range index (`getActiveLayer`, line 201). -/
def jsGet (ls : List Layer) (i : ℤ) : Option Layer :=
  if i < 0 then none else ls.get? i.toNat

/-- The `getActiveLayer()` method: `this.layers[this.activeLayerIndex]`. -/
def getActiveLayer (m : LayerManager) : Option Layer :=
  jsGet m.layers m.activeLayerIndex

/-- The `addLayer(name)` method (lines 178-188): append a fresh transparent
layer and make it active.  The fresh id (`Date.now() + Math.random()`) is
nondeterministic and passed as a parameter. -/
def addLayer (m : LayerManager) (freshId : ℚ) (name : String) : LayerManager :=
  { layers := m.layers ++ [Layer.mk' freshId name],
    activeLayerIndex := (m.layers.length : ℤ) }

/-- The `new LayerManager(fabricCanvas)` constructor (lines 166-173):
empty list, index `-1`, then `addLayer("Background")`. -/
def init (freshId : ℚ) : LayerManager :=
  addLayer { layers := [], activeLayerIndex := -1 } freshId "Background"

/-- The `setActiveLayer(index)` method (lines 207-211): bounds-checked. -/
def setActiveLayer (m : LayerManager) (i : ℤ) : LayerManager :=
  if 0 ≤ i ∧ i < (m.layers.length : ℤ) then { m with activeLayerIndex := i } else m

/-- Start position of `Array.prototype.splice(start, ...)`: a negative start
counts from the end (clamped at 0), a large start is clamped to the length. -/
def jsSpliceStart (start : ℤ) (len : ℕ) : ℕ :=
  if start < 0 then ((len : ℤ) + start).toNat else min start.toNat len

/-- The layer list after `this.layers.splice(index, 1)`: remove the one
element at the (clamped) start position, if any. -/
def spliceRemove1 (ls : List Layer) (index : ℤ) : List Layer :=
  let s := jsSpliceStart index ls.length
  ls.take s ++ ls.drop (s + 1)

/-- The `deleteLayer(index)` method (lines 216-224): keep at least one
layer, `splice` the target out, clamp the active index back into range. -/
def deleteLayer (m : LayerManager) (index : ℤ) : LayerManager :=
  if m.layers.length ≤ 1 then m
  else
    { layers := spliceRemove1 m.layers index,
      activeLayerIndex :=
        if ((spliceRemove1 m.layers index).length : ℤ) ≤ m.activeLayerIndex
        then ((spliceRemove1 m.layers index).length : ℤ) - 1
        else m.activeLayerIndex }

/-- Replacement of the element at position `n`, when it exists, by its image
under `f` (in-place mutation of `this.layers[i]` in the source). -/
def modifyAt (ls : List Layer) (n : ℕ) (f : Layer → Layer) : List Layer :=
  match ls.get? n with
  | some l => ls.set n (f l)
  | none => ls

/-- The `toggleLayerVisibility(index)` method (lines 229-234). -/
def toggleLayerVisibility (m : LayerManager) (i : ℤ) : LayerManager :=
  if 0 ≤ i ∧ i < (m.layers.length : ℤ) then
    { m with layers := modifyAt m.layers i.toNat fun l => { l with visible := !l.visible } }
  else m

/-- The `mergeDown(index)` method (lines 239-252): draw the upper layer's
canvas onto the lower one at the upper layer's opacity, then delete the
upper layer. -/
def mergeDown (m : LayerManager) (index : ℤ) : LayerManager :=
  if index ≤ 0 ∨ (m.layers.length : ℤ) ≤ index then m
  else
    match m.layers.get? index.toNat with
    | some upper =>
        deleteLayer
          { m with layers := modifyAt m.layers (index.toNat - 1) fun lower =>
              { lower with buffer :=
                  lower.buffer ++ [PaintCmd.image upper.buffer upper.opacity] } }
          index
    | none => m

/-- The `toJSON()` method (lines 309-321). -/
def toJSON (m : LayerManager) : LMJson :=
  { layers := m.layers.map fun l =>
      { id := l.id, name := l.name, visible := l.visible, opacity := l.opacity,
        locked := l.locked, data := l.toDataURL },
    activeLayerIndex := m.activeLayerIndex }

/-- One restored layer of `fromJSON` (lines 333-352): a fresh layer with the
json metadata whose canvas holds the decoded raster; if the browser rejects
the data, `img.onload` never fires (there is no `onerror` handler), so the
canvas keeps its initial cleared content. -/
def layerOfJson (lj : LayerJson) : Layer :=
  { id := lj.id, name := lj.name, visible := lj.visible, opacity := lj.opacity,
    locked := lj.locked, buffer := (decodeImage lj.data).getD [] }

/-- The `fromJSON(json, callback)` method (lines 326-354), state part: the
layer list and active index are replaced from the json unconditionally;
the previous layers are dropped. -/
def fromJSON (_m : LayerManager) (j : LMJson) : LayerManager :=
  { layers := j.layers.map layerOfJson,
    activeLayerIndex := jsOrZ j.activeLayerIndex 0 }

/-- Whether the `fromJSON` completion callback (and the final
`updateComposite`) ever runs: `loadedCount` reaches `totalLayers` only when
every layer's image decodes, and never when the json has no layers. -/
def fromJSONCallbackFired (j : LMJson) : Bool :=
  !j.layers.isEmpty && j.layers.all fun lj => (decodeImage lj.data).isSome

end LayerManager

/-- The `HistoryManager` state (lines 360-425).  A stored state is
`JSON.stringify(this.layerManager.toJSON())`; `stringify`/`parse` round-trip
exactly, so snapshots are modelled as the `LMJson` values themselves. -/
structure HistoryManager where
  maxStates : ℕ
  states : List LMJson
  currentIndex : ℤ
  isRestoring : Bool

namespace HistoryManager

/-- JavaScript `array.slice(0, e)` on the states list: a negative end counts
from the length (used for `this.states.slice(0, this.currentIndex + 1)`). -/
def jsSliceTo (l : List LMJson) (e : ℤ) : List LMJson :=
  if e < 0 then l.take ((l.length : ℤ) + e).toNat else l.take e.toNat

/-- JavaScript `this.states[this.currentIndex]` as read by `restoreState`;
only ever evaluated at a valid cursor. -/
def jsState (l : List LMJson) (i : ℤ) : LMJson :=
  if i < 0 then ⟨[], 0⟩ else (l.get? i.toNat).getD ⟨[], 0⟩

/-- The `saveState()` method (lines 372-398), acting on the history state
given the tracked `LayerManager`: no-op while restoring; truncate the states
after the cursor; push the serialized stack; on overflow `shift()` the
oldest state out without advancing the cursor, otherwise advance the
cursor.  (The trailing `updateCanvasData` call only exports pixels to the
host and mutates no engine state.) -/
def saveState (h : HistoryManager) (m : LayerManager) : HistoryManager :=
  if h.isRestoring then h
  else
    let sts₀ := if h.currentIndex < (h.states.length : ℤ) - 1
                then jsSliceTo h.states (h.currentIndex + 1) else h.states
    let sts := sts₀ ++ [m.toJSON]
    if h.maxStates < sts.length then
      { h with states := sts.drop 1 }
    else
      { h with states := sts, currentIndex := h.currentIndex + 1 }

/-- The `new HistoryManager(layerManager, maxStates = 20)` constructor
(lines 361-370): empty history, cursor `-1`, then an initial `saveState`. -/
def init (m : LayerManager) (maxStates : ℕ := 20) : HistoryManager :=
  saveState { maxStates := maxStates, states := [], currentIndex := -1, isRestoring := false } m

/-- The `restoreState()` method (lines 418-424): parse the state at the
cursor and load it with `fromJSON`; `isRestoring` is raised and is cleared
only by the `fromJSON` completion callback, so it stays raised exactly when
that callback never fires.  Returns the updated history and stack. -/
def restoreState (h : HistoryManager) (m : LayerManager) :
    HistoryManager × LayerManager :=
  let j := jsState h.states h.currentIndex
  ({ h with isRestoring := !(LayerManager.fromJSONCallbackFired j) },
   m.fromJSON j)

/-- The `undo()` method (lines 400-407): when the cursor is positive,
decrement it and restore; otherwise do nothing.  The `Bool` is the return
value. -/
def undo (h : HistoryManager) (m : LayerManager) :
    HistoryManager × LayerManager × Bool :=
  if 0 < h.currentIndex then
    ((restoreState { h with currentIndex := h.currentIndex - 1 } m).1,
     (restoreState { h with currentIndex := h.currentIndex - 1 } m).2, true)
  else (h, m, false)

/-- The `redo()` method (lines 409-416): when the cursor is before the last
state, increment it and restore; otherwise do nothing. -/
def redo (h : HistoryManager) (m : LayerManager) :
    HistoryManager × LayerManager × Bool :=
  if h.currentIndex < (h.states.length : ℤ) - 1 then
    ((restoreState { h with currentIndex := h.currentIndex + 1 } m).1,
     (restoreState { h with currentIndex := h.currentIndex + 1 } m).2, true)
  else (h, m, false)

end HistoryManager

/-- The per-node drawing state wired up by `createToolbar` and
`setupDrawingHandlers` (lines 480-492, 802-878): current tool and brush
settings, the in-progress stroke, and the layer/history managers. -/
structure NodeState where
  currentTool : String
  brushSize : ℚ
  brushColor : String
  brushOpacity : ℚ
  pressureSensitivity : ℚ
  isDrawing : Bool
  currentStroke : List StrokePoint
  layerManager : LayerManager
  historyManager : HistoryManager

namespace NodeState

/-- Mutation of the active layer through the reference returned by
`getActiveLayer()` (the JS object is mutated in place, which updates the
entry of `this.layers`). -/
def withActiveLayer (m : LayerManager) (f : Layer → Layer) : LayerManager :=
  if m.activeLayerIndex < 0 then m
  else { m with layers := LayerManager.modifyAt m.layers m.activeLayerIndex.toNat f }

/-- The `mouse:down` handler (lines 806-818): ignore the select tool, a
missing active layer and a locked active layer; otherwise begin capturing
with the initial sample (`pressure = options.e.pressure || 1.0`). -/
def mouseDown (s : NodeState) (x y rawPressure : ℚ) : NodeState :=
  if s.currentTool = "select" then s
  else
    match s.layerManager.getActiveLayer with
    | none => s
    | some layer =>
      if layer.locked then s
      else { s with isDrawing := true,
                    currentStroke := [⟨x, y, jsOrQ rawPressure 1⟩] }

/-- The `mouse:move` handler (lines 821-854): while drawing, append a
sample.  The preview segment it paints goes to the fabric display context
only and is not engine state. -/
def mouseMove (s : NodeState) (x y rawPressure : ℚ) : NodeState :=
  if s.isDrawing then
    { s with currentStroke := s.currentStroke ++ [⟨x, y, jsOrQ rawPressure 1⟩] }
  else s

/-- The stack produced by the commit step of the `mouse:up` handler (lines
865-870): brush applies `drawStroke`, eraser applies `erase`, any other tool
leaves the stack as is; the target is whatever layer `getActiveLayer()`
returns at pointer-up time. -/
noncomputable def commitTarget (s : NodeState) : LayerManager :=
  if s.currentTool = "brush" then
    withActiveLayer s.layerManager fun l =>
      l.drawStroke s.currentStroke (hexToRgba s.brushColor s.brushOpacity)
        s.brushSize s.pressureSensitivity
  else if s.currentTool = "eraser" then
    withActiveLayer s.layerManager fun l => l.erase s.currentStroke s.brushSize
  else s.layerManager

/-- The `mouse:up` handler (lines 857-877): stop drawing; if an active layer
exists and at least two samples were captured, commit the stroke to that
layer, recomposite (display only), and save a history snapshot, then clear
the stroke buffer.  Note that the handler re-reads the active layer but
does not re-check `locked`. -/
noncomputable def mouseUp (s : NodeState) : NodeState :=
  if !s.isDrawing then s
  else
    match s.layerManager.getActiveLayer with
    | none => { s with isDrawing := false }
    | some _ =>
      if s.currentStroke.length < 2 then { s with isDrawing := false }
      else
        { s with
            isDrawing := false,
            layerManager := commitTarget s,
            historyManager := s.historyManager.saveState (commitTarget s),
            currentStroke := [] }

/-- The layer-panel delete button handler (lines 770-776): guarded by more
than one layer, then `deleteLayer` followed by `saveState`. -/
def deleteLayerButton (s : NodeState) (index : ℤ) : NodeState :=
  if 1 < s.layerManager.layers.length then
    let m' := s.layerManager.deleteLayer index
    { s with layerManager := m', historyManager := s.historyManager.saveState m' }
  else s

end NodeState

/-! ### Pixel-level compositing model

`exportCanvasWithAlpha` (lines 965-985) paints a composite canvas pixel by
pixel: an opaque white `fillRect`, then each visible layer `drawImage`d at
`globalAlpha = layer.opacity` with the default `source-over` operation.
The model works on the per-layer pixel data that `drawImage` consumes. -/

/-- A non-premultiplied RGBA pixel, channels in `[0, 1]`. -/
structure RGBA where
  r : ℚ
  g : ℚ
  b : ℚ
  a : ℚ
deriving DecidableEq, Repr

/-- Fully transparent pixel: the content of a cleared canvas. -/
def transparentPix : RGBA := ⟨0, 0, 0, 0⟩

/-- Opaque white: what `fillStyle = '#ffffff'; fillRect(...)` writes. -/
def whitePix : RGBA := ⟨1, 1, 1, 1⟩

/-- Canvas `source-over` blending of a source pixel onto a destination
pixel at a given `globalAlpha`. -/
def srcOver (src dst : RGBA) (ga : ℚ) : RGBA :=
  let sa := src.a * ga
  let outA := sa + dst.a * (1 - sa)
  if outA = 0 then transparentPix
  else ⟨(src.r * sa + dst.r * dst.a * (1 - sa)) / outA,
        (src.g * sa + dst.g * dst.a * (1 - sa)) / outA,
        (src.b * sa + dst.b * dst.a * (1 - sa)) / outA,
        outA⟩

/-- Pixel data of one layer as consumed by the export loop: visibility,
opacity, and the rasterized canvas content. -/
structure LayerPix where
  visible : Bool
  opacity : ℚ
  pix : ℕ → ℕ → RGBA

/-- One pixel of the composite built by `exportCanvasWithAlpha`: start from
the white-filled background, then blend each visible layer bottom-to-top at
its opacity.  (`updateComposite`, lines 257-295, builds its fabric preview
image with exactly the same fill-white-then-blend loop.) -/
def exportCanvasWithAlpha (layers : List LayerPix) (x y : ℕ) : RGBA :=
  layers.foldl (fun dst l => if l.visible then srcOver (l.pix x y) dst l.opacity else dst)
    whitePix

/-! ### History interleavings

The app drives the `HistoryManager` through exactly these entry points: a
committed mutation of the stack followed by `saveState` (stroke commit,
clear, new layer, delete layer, image load), a bare `saveState`, `undo`,
and `redo`.  `ReachableHist` captures every state obtainable that way from
a freshly constructed manager. -/

/-- One driver call into the history system. -/
inductive HistOp where
  /-- A committed mutation: the stack becomes `m`, then `saveState` runs.
  Every mutation path of the app keeps at least one layer on the stack. -/
  | commit (m : LayerManager)
  /-- A bare `saveState()` call on the unchanged stack. -/
  | save
  /-- An `undo()` call. -/
  | undoOp
  /-- A `redo()` call. -/
  | redoOp

/-- Effect of one driver call on the (history, stack) pair. -/
def applyHistOp (s : HistoryManager × LayerManager) :
    HistOp → HistoryManager × LayerManager
  | HistOp.commit m => (s.1.saveState m, m)
  | HistOp.save => (s.1.saveState s.2, s.2)
  | HistOp.undoOp => ((s.1.undo s.2).1, (s.1.undo s.2).2.1)
  | HistOp.redoOp => ((s.1.redo s.2).1, (s.1.redo s.2).2.1)

/-- Run a sequence of driver calls. -/
def runHistOps (s : HistoryManager × LayerManager)
    (ops : List HistOp) : HistoryManager × LayerManager :=
  ops.foldl applyHistOp s

/-- Side condition of a driver call: committed stacks always carry at least
one layer (the `LayerManager` constructor creates one and `deleteLayer`
never removes the last). -/
def HistOpValid : HistOp → Prop
  | HistOp.commit m => 1 ≤ m.layers.length
  | _ => True

/-- States of the (history, stack) pair reachable by any interleaving of
committed mutations, `saveState`, `undo` and `redo` from a fresh
`HistoryManager` over a fresh-or-populated stack. -/
def ReachableHist (s : HistoryManager × LayerManager) : Prop :=
  ∃ (m₀ : LayerManager) (maxN : ℕ) (ops : List HistOp),
    1 ≤ m₀.layers.length ∧ 1 ≤ maxN ∧ (∀ op ∈ ops, HistOpValid op) ∧
    s = runHistOps (HistoryManager.init m₀ maxN, m₀) ops

/-- A snapshot that is the serialization of some stack with at least one
layer — the only snapshots `saveState` ever stores. -/
def SnapOk (j : LMJson) : Prop :=
  ∃ m : LayerManager, 1 ≤ m.layers.length ∧ j = m.toJSON

/-- Invariant tying a reachable history to its stack: not mid-restoration,
the cursor valid, history within its bound, every snapshot well-formed, and
the live stack equal to the deserialization of the snapshot under the
cursor. -/
def HistInv (s : HistoryManager × LayerManager) : Prop :=
  s.1.isRestoring = false ∧
  0 ≤ s.1.currentIndex ∧
  s.1.currentIndex < (s.1.states.length : ℤ) ∧
  s.1.states.length ≤ s.1.maxStates ∧
  1 ≤ s.1.maxStates ∧
  (∀ j ∈ s.1.states, SnapOk j) ∧
  s.2 = LayerManager.fromJSON s.2 (HistoryManager.jsState s.1.states s.1.currentIndex) ∧
  1 ≤ s.2.layers.length

/-- The structural invariant of the layer stack from the spec: at least one
layer exists and the active index is in range. -/
def StackInv (m : LayerManager) : Prop :=
  1 ≤ m.layers.length ∧ 0 ≤ m.activeLayerIndex ∧
  m.activeLayerIndex < (m.layers.length : ℤ)

/-! ### Concrete fixtures used by witnesses and counterexamples -/

/-- A freshly constructed one-layer stack. -/
def lmBg : LayerManager := LayerManager.init 1

/-- The fresh stack with a second layer added (and active). -/
def lmTwo : LayerManager := lmBg.addLayer 2 "Layer 2"

/-- A third distinct stack. -/
def lmThird : LayerManager := lmBg.addLayer 5 "C-layer"

/-- Serialization of the fresh one-layer stack. -/
def jsonBg : LMJson := lmBg.toJSON

/-- Serialization of the two-layer stack. -/
def jsonTwo : LMJson := lmTwo.toJSON

/-- A serialized stack whose single layer's raster data the browser image
decoder rejects. -/
def jsonCorrupt : LMJson :=
  { layers := [{ id := 9, name := "Restored", visible := true, opacity := 1,
                 locked := false, data := DataURL.corrupt }],
    activeLayerIndex := 0 }

/-- History with three snapshots and the cursor at the front (two undos
deep). -/
def hmThree : HistoryManager :=
  { maxStates := 20, states := [jsonBg, jsonTwo, jsonBg], currentIndex := 0,
    isRestoring := false }

/-- History filled to its bound of 2, cursor at the end. -/
def hmFull : HistoryManager :=
  { maxStates := 2, states := [jsonBg, jsonTwo], currentIndex := 1,
    isRestoring := false }

/-- The first pointer sample of the example stroke. -/
def strokeA : StrokePoint := ⟨0, 0, 1⟩

/-- The second pointer sample of the example stroke. -/
def strokeB : StrokePoint := ⟨10, 0, 1⟩

/-- A fresh transparent layer fixture. -/
def bgLayer : Layer := Layer.mk' 1 "Background"

/-- A locked layer fixture. -/
def lockedLayer : Layer :=
  { id := 8, name := "Locked", visible := true, opacity := 1, locked := true, buffer := [] }

/-- A stack whose only (active) layer is locked. -/
def lmLocked : LayerManager := ⟨[lockedLayer], 0⟩

/-- A node mid-capture over the locked stack, with two samples recorded. -/
def nodeLocked : NodeState :=
  { currentTool := "brush", brushSize := 5, brushColor := "#000000", brushOpacity := 1,
    pressureSensitivity := 1, isDrawing := true, currentStroke := [strokeA, strokeB],
    layerManager := lmLocked, historyManager := HistoryManager.init lmLocked 20 }

/-- A node at rest over the two-layer stack. -/
def nodeTwo : NodeState :=
  { currentTool := "brush", brushSize := 5, brushColor := "#000000", brushOpacity := 1,
    pressureSensitivity := 1, isDrawing := false, currentStroke := [],
    layerManager := lmTwo, historyManager := HistoryManager.init lmTwo 20 }

/-- The scenario of claim C3: pointer-down on the active top layer, one
pointer-move, then the active layer is deleted mid-capture via the layer
panel's delete button. -/
def nodeMid : NodeState :=
  ((nodeTwo.mouseDown 0 0 1).mouseMove 10 0 1).deleteLayerButton 1

/-- A reachable (history, stack) pair with the cursor past 0: fresh manager
over the fresh stack, then one committed mutation. -/
def histW : HistoryManager × LayerManager :=
  runHistOps (HistoryManager.init lmBg 20, lmBg) [HistOp.commit lmTwo]

/-! ### Helper lemmas -/

theorem jsOrZ_self (a : ℤ) : jsOrZ a 0 = a := by
  unfold jsOrZ; split <;> omega

theorem layerOfJson_serialize (l : Layer) :
    LayerManager.layerOfJson
      { id := l.id, name := l.name, visible := l.visible, opacity := l.opacity,
        locked := l.locked, data := l.toDataURL } = l := rfl

/-- Deserialization is a left inverse of serialization, for every stack and
regardless of the stack the method is invoked on (`fromJSON` ignores the
prior state entirely). -/
theorem fromJSON_toJSON (x m : LayerManager) : x.fromJSON m.toJSON = m := by
  cases m with
  | mk ls a =>
    unfold LayerManager.fromJSON LayerManager.toJSON
    simp only [List.map_map, jsOrZ_self, LayerManager.mk.injEq, and_true]
    have h : ∀ l ∈ ls, (LayerManager.layerOfJson ∘ fun l => LayerJson.mk l.id l.name
        l.visible l.opacity l.locked l.toDataURL) l = id l := fun l _ => rfl
    rw [List.map_congr_left h, List.map_id]

theorem callbackFired_of_snapOk {j : LMJson} (h : SnapOk j) :
    LayerManager.fromJSONCallbackFired j = true := by
  obtain ⟨m, hm, rfl⟩ := h
  unfold LayerManager.fromJSONCallbackFired LayerManager.toJSON
  simp only [Bool.and_eq_true, Bool.not_eq_true', List.all_eq_true, List.mem_map]
  constructor
  · cases hls : m.layers with
    | nil => rw [hls] at hm; simp at hm
    | cons x xs => simp
  · rintro lj ⟨l, _, rfl⟩
    simp [Layer.toDataURL, decodeImage]

theorem saveState_no_evict (h : HistoryManager) (m : LayerManager)
    (hr : h.isRestoring = false) (hlo : -1 ≤ h.currentIndex)
    (hhi : h.currentIndex < (h.states.length : ℤ))
    (hcap : (h.currentIndex + 1).toNat + 1 ≤ h.maxStates) :
    h.saveState m =
      { h with states := h.states.take (h.currentIndex + 1).toNat ++ [m.toJSON],
               currentIndex := h.currentIndex + 1 } := by
  unfold HistoryManager.saveState
  rw [hr]
  simp only [Bool.false_eq_true, if_false]
  have hA : (if h.currentIndex < (h.states.length : ℤ) - 1
      then HistoryManager.jsSliceTo h.states (h.currentIndex + 1) else h.states) =
      h.states.take (h.currentIndex + 1).toNat := by
    by_cases htr : h.currentIndex < (h.states.length : ℤ) - 1
    · rw [if_pos htr]
      unfold HistoryManager.jsSliceTo
      rw [if_neg (by omega)]
    · rw [if_neg htr]
      rw [show (h.currentIndex + 1).toNat = h.states.length by omega, List.take_length]
  rw [hA]
  have hlen : (h.states.take (h.currentIndex + 1).toNat ++ [m.toJSON]).length =
      (h.currentIndex + 1).toNat + 1 := by
    simp [List.length_append, List.length_take]
    omega
  rw [if_neg (by omega)]

theorem saveState_evict (h : HistoryManager) (m : LayerManager)
    (hr : h.isRestoring = false) (hlo : -1 ≤ h.currentIndex)
    (hhi : h.currentIndex < (h.states.length : ℤ))
    (hmax : 1 ≤ h.maxStates)
    (hcap : h.maxStates < (h.currentIndex + 1).toNat + 1) :
    h.saveState m =
      { h with states := (h.states.take (h.currentIndex + 1).toNat).drop 1 ++ [m.toJSON] } := by
  unfold HistoryManager.saveState
  rw [hr]
  simp only [Bool.false_eq_true, if_false]
  have hA : (if h.currentIndex < (h.states.length : ℤ) - 1
      then HistoryManager.jsSliceTo h.states (h.currentIndex + 1) else h.states) =
      h.states.take (h.currentIndex + 1).toNat := by
    by_cases htr : h.currentIndex < (h.states.length : ℤ) - 1
    · rw [if_pos htr]
      unfold HistoryManager.jsSliceTo
      rw [if_neg (by omega)]
    · rw [if_neg htr]
      rw [show (h.currentIndex + 1).toNat = h.states.length by omega, List.take_length]
  rw [hA]
  have hlen : (h.states.take (h.currentIndex + 1).toNat ++ [m.toJSON]).length =
      (h.currentIndex + 1).toNat + 1 := by
    simp [List.length_append, List.length_take]
    omega
  rw [if_pos (by omega)]
  have h1 : 1 ≤ (h.states.take (h.currentIndex + 1).toNat).length := by
    simp [List.length_take]; omega
  rw [List.drop_append_of_le_length h1]

theorem jsState_concat (A : List LMJson) (j : LMJson) (i : ℤ)
    (h0 : 0 ≤ i) (hi : i.toNat = A.length) :
    HistoryManager.jsState (A ++ [j]) i = j := by
  unfold HistoryManager.jsState
  rw [if_neg (by omega), hi, List.get?_concat_length]
  rfl

theorem jsState_mem (l : List LMJson) (i : ℤ) (h0 : 0 ≤ i)
    (hi : i < (l.length : ℤ)) : HistoryManager.jsState l i ∈ l := by
  unfold HistoryManager.jsState
  rw [if_neg (by omega)]
  have hlt : i.toNat < l.length := by omega
  rw [List.get?_eq_get hlt]
  exact List.get_mem l _ hlt

theorem restoreState_eq (h : HistoryManager) (m : LayerManager) :
    HistoryManager.restoreState h m =
      ({ h with isRestoring := !(LayerManager.fromJSONCallbackFired
           (HistoryManager.jsState h.states h.currentIndex)) },
       m.fromJSON (HistoryManager.jsState h.states h.currentIndex)) := rfl

theorem undo_pos (h : HistoryManager) (m : LayerManager)
    (hci : 0 < h.currentIndex) :
    h.undo m =
      ({ h with
          currentIndex := h.currentIndex - 1,
          isRestoring := !(LayerManager.fromJSONCallbackFired
            (HistoryManager.jsState h.states (h.currentIndex - 1))) },
       m.fromJSON (HistoryManager.jsState h.states (h.currentIndex - 1)), true) := by
  unfold HistoryManager.undo
  rw [if_pos hci]
  rfl

theorem redo_pos (h : HistoryManager) (m : LayerManager)
    (hci : h.currentIndex < (h.states.length : ℤ) - 1) :
    h.redo m =
      ({ h with
          currentIndex := h.currentIndex + 1,
          isRestoring := !(LayerManager.fromJSONCallbackFired
            (HistoryManager.jsState h.states (h.currentIndex + 1))) },
       m.fromJSON (HistoryManager.jsState h.states (h.currentIndex + 1)), true) := by
  unfold HistoryManager.redo
  rw [if_pos hci]
  rfl

theorem histInv_saveState {h : HistoryManager} {m : LayerManager}
    (hinv : HistInv (h, m)) (m' : LayerManager) (hm' : 1 ≤ m'.layers.length) :
    HistInv (h.saveState m', m') := by
  obtain ⟨hr, h0, hlt, hb, hm1, hsnap, hlm, hlay⟩ := hinv
  dsimp only at hr h0 hlt hb hm1 hsnap hlm hlay
  have ht : ((h.currentIndex + 1).toNat : ℤ) = h.currentIndex + 1 := by omega
  have htle : (h.currentIndex + 1).toNat ≤ h.states.length := by omega
  by_cases hcap : h.maxStates < (h.currentIndex + 1).toNat + 1
  · rw [saveState_evict h m' hr (by omega) hlt hm1 hcap]
    have ht1 : 1 ≤ (h.currentIndex + 1).toNat := by omega
    unfold HistInv
    dsimp only
    have hlen : ((h.states.take (h.currentIndex + 1).toNat).drop 1 ++ [m'.toJSON]).length =
        (h.currentIndex + 1).toNat := by
      simp only [List.length_append, List.length_drop, List.length_take,
        List.length_cons, List.length_nil]
      omega
    refine ⟨hr, h0, by omega, by omega, hm1, ?_, ?_, hm'⟩
    · intro j hj
      rcases List.mem_append.mp hj with hj | hj
      · exact hsnap j (List.take_subset _ _ (List.drop_subset _ _ hj))
      · rcases List.mem_singleton.mp hj with rfl
        exact ⟨m', hm', rfl⟩
    · rw [jsState_concat _ _ _ h0
        (by simp only [List.length_drop, List.length_take]; omega)]
      exact (fromJSON_toJSON m' m').symm
  · rw [saveState_no_evict h m' hr (by omega) hlt (by omega)]
    unfold HistInv
    dsimp only
    have hlen : (h.states.take (h.currentIndex + 1).toNat ++ [m'.toJSON]).length =
        (h.currentIndex + 1).toNat + 1 := by
      simp only [List.length_append, List.length_take, List.length_cons, List.length_nil]
      omega
    refine ⟨hr, by omega, by omega, by omega, hm1, ?_, ?_, hm'⟩
    · intro j hj
      rcases List.mem_append.mp hj with hj | hj
      · exact hsnap j (List.take_subset _ _ hj)
      · rcases List.mem_singleton.mp hj with rfl
        exact ⟨m', hm', rfl⟩
    · rw [jsState_concat _ _ _ (by omega) (by simp only [List.length_take]; omega)]
      exact (fromJSON_toJSON m' m').symm

theorem histInv_undo {h : HistoryManager} {m : LayerManager}
    (hinv : HistInv (h, m)) : HistInv (applyHistOp (h, m) HistOp.undoOp) := by
  obtain ⟨hr, h0, hlt, hb, hm1, hsnap, hlm, hlay⟩ := hinv
  dsimp only at hr h0 hlt hb hm1 hsnap hlm hlay
  show HistInv ((h.undo m).1, (h.undo m).2.1)
  by_cases hci : 0 < h.currentIndex
  · rw [undo_pos h m hci]
    obtain ⟨mj, hmj, hjeq⟩ :=
      hsnap _ (jsState_mem h.states (h.currentIndex - 1) (by omega) (by omega))
    unfold HistInv
    dsimp only
    refine ⟨?_, by omega, by omega, hb, hm1, hsnap, rfl, ?_⟩
    · rw [callbackFired_of_snapOk ⟨mj, hmj, hjeq⟩]
      rfl
    · rw [hjeq, fromJSON_toJSON]
      exact hmj
  · rw [show h.undo m = (h, m, false) by unfold HistoryManager.undo; rw [if_neg hci]]
    exact ⟨hr, h0, hlt, hb, hm1, hsnap, hlm, hlay⟩

theorem histInv_redo {h : HistoryManager} {m : LayerManager}
    (hinv : HistInv (h, m)) : HistInv (applyHistOp (h, m) HistOp.redoOp) := by
  obtain ⟨hr, h0, hlt, hb, hm1, hsnap, hlm, hlay⟩ := hinv
  dsimp only at hr h0 hlt hb hm1 hsnap hlm hlay
  show HistInv ((h.redo m).1, (h.redo m).2.1)
  by_cases hci : h.currentIndex < (h.states.length : ℤ) - 1
  · rw [redo_pos h m hci]
    obtain ⟨mj, hmj, hjeq⟩ :=
      hsnap _ (jsState_mem h.states (h.currentIndex + 1) (by omega) (by omega))
    unfold HistInv
    dsimp only
    refine ⟨?_, by omega, by omega, hb, hm1, hsnap, rfl, ?_⟩
    · rw [callbackFired_of_snapOk ⟨mj, hmj, hjeq⟩]
      rfl
    · rw [hjeq, fromJSON_toJSON]
      exact hmj
  · rw [show h.redo m = (h, m, false) by unfold HistoryManager.redo; rw [if_neg hci]]
    exact ⟨hr, h0, hlt, hb, hm1, hsnap, hlm, hlay⟩

theorem histInv_init (m₀ : LayerManager) (maxN : ℕ)
    (hm₀ : 1 ≤ m₀.layers.length) (hmax : 1 ≤ maxN) :
    HistInv (HistoryManager.init m₀ maxN, m₀) := by
  unfold HistoryManager.init
  rw [saveState_no_evict _ _ rfl (by norm_num) (by norm_num) (by simpa using hmax)]
  unfold HistInv
  dsimp only
  refine ⟨rfl, by norm_num, by simp, by simpa using hmax, hmax, ?_, ?_, hm₀⟩
  · intro j hj
    simp only [List.take_nil, List.nil_append, List.mem_singleton] at hj
    subst hj
    exact ⟨m₀, hm₀, rfl⟩
  · rw [show List.take ((-1 : ℤ) + 1).toNat ([] : List LMJson) = [] by simp]
    rw [jsState_concat ([] : List LMJson) _ _ (by norm_num) (by simp)]
    exact (fromJSON_toJSON m₀ m₀).symm

theorem histInv_step (s : HistoryManager × LayerManager) (op : HistOp)
    (hinv : HistInv s) (hop : HistOpValid op) : HistInv (applyHistOp s op) := by
  obtain ⟨h, m⟩ := s
  cases op with
  | commit m' => exact histInv_saveState hinv m' hop
  | save => exact histInv_saveState hinv m hinv.2.2.2.2.2.2.2
  | undoOp => exact histInv_undo hinv
  | redoOp => exact histInv_redo hinv

theorem histInv_run (ops : List HistOp) (s : HistoryManager × LayerManager)
    (hinv : HistInv s) (hops : ∀ op ∈ ops, HistOpValid op) :
    HistInv (runHistOps s ops) := by
  induction ops generalizing s with
  | nil => exact hinv
  | cons op rest ih =>
    exact ih (applyHistOp s op)
      (histInv_step s op hinv (hops op (List.mem_cons_self op rest)))
      (fun o ho => hops o (List.mem_cons_of_mem op ho))

theorem histInv_of_reachable (s : HistoryManager × LayerManager)
    (h : ReachableHist s) : HistInv s := by
  obtain ⟨m₀, maxN, ops, hm₀, hmax, hops, rfl⟩ := h
  exact histInv_run ops _ (histInv_init m₀ maxN hm₀ hmax) hops

/-! ### Claim theorems -/

/-- C9: for every layer and every sample list with fewer than 2 samples,
both `drawStroke` and `erase` return the layer completely unchanged (the
guard fires before any context mutation, so no error can arise either). -/
theorem short_stroke_and_erase_are_noops (l : Layer) (points : List StrokePoint)
    (color : JsColor) (w sens ew : ℚ) (h : points.length < 2) :
    l.drawStroke points color w sens = l ∧ l.erase points ew = l := by
  unfold Layer.drawStroke Layer.erase
  rw [if_pos h, if_pos h]
  exact ⟨rfl, rfl⟩

/-- Witness for C9 at a concrete one-sample call. -/
theorem short_stroke_and_erase_are_noops_witness :
    ([strokeA] : List StrokePoint).length < 2 ∧
    (bgLayer.drawStroke [strokeA] (hexToRgba "#000000" 1) 5 1 = bgLayer ∧
     bgLayer.erase [strokeA] 5 = bgLayer) :=
  ⟨by decide, short_stroke_and_erase_are_noops bgLayer [strokeA]
    (hexToRgba "#000000" 1) 5 1 5 (by decide)⟩

/-- C8: every `drawStroke` call with at least 2 samples draws each
consecutive pair as a segment of effective width
`max(1, baseWidth * averagePressure)` where each sample's pressure is
transformed by `pressure ^ (1 / pressureSensitivity)` (for the positive
pressures the capture pipeline produces); in particular a 2-sample stroke
at pressure 1.0 with `baseWidth ≥ 1` is drawn at exactly `baseWidth`. -/
theorem drawStroke_pressure_width :
    (∀ (l : Layer) (points : List StrokePoint) (color : JsColor) (w s : ℚ),
      2 ≤ points.length → (∀ p ∈ points, 0 < p.pressure) →
      (l.drawStroke points color w s).buffer = l.buffer ++
        (points.zip points.tail).map (fun q =>
          PaintCmd.seg q.1.x q.1.y q.2.x q.2.y color
            (max 1 ((w : ℝ) *
              ((Real.rpow (q.1.pressure : ℝ) (1 / (s : ℝ)) +
                Real.rpow (q.2.pressure : ℝ) (1 / (s : ℝ))) / 2))))) ∧
    (∀ (l : Layer) (p1 p2 : StrokePoint) (color : JsColor) (w s : ℚ),
      1 ≤ w → p1.pressure = 1 → p2.pressure = 1 →
      (l.drawStroke [p1, p2] color w s).buffer =
        l.buffer ++ [PaintCmd.seg p1.x p1.y p2.x p2.y color ((w : ℚ) : ℝ)]) := by
  have key : ∀ (l : Layer) (points : List StrokePoint) (color : JsColor) (w s : ℚ),
      2 ≤ points.length → (∀ p ∈ points, 0 < p.pressure) →
      (l.drawStroke points color w s).buffer = l.buffer ++
        (points.zip points.tail).map (fun q =>
          PaintCmd.seg q.1.x q.1.y q.2.x q.2.y color
            (max 1 ((w : ℝ) *
              ((Real.rpow (q.1.pressure : ℝ) (1 / (s : ℝ)) +
                Real.rpow (q.2.pressure : ℝ) (1 / (s : ℝ))) / 2)))) := by
    intro l points color w s hlen hp
    unfold Layer.drawStroke
    rw [if_neg (by omega)]
    simp only []
    congr 1
    apply List.map_congr_left
    rintro ⟨a, b⟩ hmem
    have ha : a ∈ points := (List.of_mem_zip hmem).1
    have hb : b ∈ points := List.mem_of_mem_tail (List.of_mem_zip hmem).2
    have ha' : jsOrQ a.pressure 1 = a.pressure := by
      unfold jsOrQ; rw [if_neg (ne_of_gt (hp a ha))]
    have hb' : jsOrQ b.pressure 1 = b.pressure := by
      unfold jsOrQ; rw [if_neg (ne_of_gt (hp b hb))]
    unfold segWidth jsPow
    rw [ha', hb']
  refine ⟨key, ?_⟩
  intro l p1 p2 color w s hw hp1 hp2
  have hmem : ∀ p ∈ [p1, p2], 0 < p.pressure := by
    intro p hp
    rcases List.mem_cons.mp hp with rfl | hp2'
    · rw [hp1]; norm_num
    · rcases List.mem_cons.mp hp2' with rfl | hp3
      · rw [hp2]; norm_num
      · simp at hp3
  rw [key l [p1, p2] color w s (by simp) hmem]
  simp only [List.zip_cons_cons, List.tail_cons, List.zip_nil_right, List.map_cons,
    List.map_nil]
  rw [hp1, hp2]
  have h1 : Real.rpow ((1 : ℚ) : ℝ) (1 / (s : ℝ)) = 1 := by
    rw [Rat.cast_one]; exact Real.one_rpow _
  rw [h1]
  have hmax : max (1 : ℝ) ((w : ℝ) * ((1 + 1) / 2)) = (w : ℝ) := by
    rw [show ((1 : ℝ) + 1) / 2 = 1 by norm_num, mul_one]
    exact max_eq_right (by exact_mod_cast hw)
  rw [hmax]

/-- Witness for C8 at a concrete 2-sample, pressure-1, width-5 stroke. -/
theorem drawStroke_pressure_width_witness :
    (1 : ℚ) ≤ 5 ∧ strokeA.pressure = 1 ∧ strokeB.pressure = 1 ∧
    (bgLayer.drawStroke [strokeA, strokeB] (hexToRgba "#000000" 1) 5 1).buffer =
      bgLayer.buffer ++
        [PaintCmd.seg strokeA.x strokeA.y strokeB.x strokeB.y
          (hexToRgba "#000000" 1) ((5 : ℚ) : ℝ)] :=
  ⟨by norm_num, rfl, rfl,
    drawStroke_pressure_width.2 bgLayer strokeA strokeB (hexToRgba "#000000" 1) 5 1
      (by norm_num) rfl rfl⟩

/-- C4: for every reachable history state in which undo is enabled
(cursor > 0), `undo()` followed by `redo()` restores into the stack exactly
the content it held immediately before the undo, for any prior interleaving
of committed `saveState` calls, undos and redos. -/
theorem undo_redo_restores_content (s : HistoryManager × LayerManager)
    (hreach : ReachableHist s) (hcur : 0 < s.1.currentIndex) :
    ((s.1.undo s.2).1.redo (s.1.undo s.2).2.1).2.1 = s.2 := by
  obtain ⟨h, m⟩ := s
  obtain ⟨hr, h0, hlt, hb, hm1, hsnap, hlm, hlay⟩ := histInv_of_reachable (h, m) hreach
  dsimp only at hr h0 hlt hb hm1 hsnap hlm hlay hcur ⊢
  rw [undo_pos h m hcur]
  dsimp only
  rw [redo_pos _ _ (by dsimp only; omega)]
  dsimp only
  rw [show h.currentIndex - 1 + 1 = h.currentIndex by omega]
  exact hlm.symm

/-- Witness for C4 at the concrete reachable state `histW` (one committed
mutation after construction). -/
theorem undo_redo_restores_content_witness :
    ReachableHist histW ∧ 0 < histW.1.currentIndex ∧
    ((histW.1.undo histW.2).1.redo (histW.1.undo histW.2).2.1).2.1 = histW.2 := by
  have hops : ∀ op ∈ [HistOp.commit lmTwo], HistOpValid op := by
    intro op hop
    rcases List.mem_singleton.mp hop with rfl
    show 1 ≤ lmTwo.layers.length
    decide
  have hreach : ReachableHist histW :=
    ⟨lmBg, 20, [HistOp.commit lmTwo], by decide, by norm_num, hops, rfl⟩
  exact ⟨hreach, by decide, undo_redo_restores_content histW hreach (by decide)⟩

/-- C5: with the cursor at position `k`, more than `k + 1` snapshots stored,
the history within its bound and no restoration in progress, `saveState`
discards every snapshot at a position greater than `k`, appends the
serialization of the current stack, and advances the cursor to the appended
snapshot. -/
theorem saveState_truncates_redo_branch (h : HistoryManager) (m : LayerManager)
    (hr : h.isRestoring = false) (h0 : 0 ≤ h.currentIndex)
    (hk : h.currentIndex + 1 < (h.states.length : ℤ))
    (hb : h.states.length ≤ h.maxStates) :
    (h.saveState m).states =
      h.states.take (h.currentIndex + 1).toNat ++ [m.toJSON] ∧
    (h.saveState m).currentIndex = h.currentIndex + 1 ∧
    HistoryManager.jsState (h.saveState m).states (h.saveState m).currentIndex =
      m.toJSON := by
  rw [saveState_no_evict h m hr (by omega) (by omega) (by omega)]
  refine ⟨rfl, rfl, ?_⟩
  dsimp only
  exact jsState_concat _ _ _ (by omega) (by simp only [List.length_take]; omega)

/-- Witness for C5: cursor at 0 with three stored snapshots. -/
theorem saveState_truncates_redo_branch_witness :
    hmThree.isRestoring = false ∧ 0 ≤ hmThree.currentIndex ∧
    hmThree.currentIndex + 1 < (hmThree.states.length : ℤ) ∧
    hmThree.states.length ≤ hmThree.maxStates ∧
    ((hmThree.saveState lmTwo).states =
      hmThree.states.take (hmThree.currentIndex + 1).toNat ++ [lmTwo.toJSON] ∧
     (hmThree.saveState lmTwo).currentIndex = hmThree.currentIndex + 1 ∧
     HistoryManager.jsState (hmThree.saveState lmTwo).states
       (hmThree.saveState lmTwo).currentIndex = lmTwo.toJSON) :=
  ⟨rfl, by decide, by decide, by decide,
   saveState_truncates_redo_branch hmThree lmTwo rfl (by decide) (by decide) (by decide)⟩

/-- C10: after every effective `saveState` (not during a restoration, from
any cursor position the manager can hold, including the constructor's
`-1`), the cursor equals the index of the last stored snapshot, the
snapshot at the cursor is the serialization of the stack at the time of the
call, and `redo` is impossible immediately afterwards. -/
theorem saveState_cursor_points_at_latest (h : HistoryManager) (m : LayerManager)
    (hr : h.isRestoring = false) (hmax : 1 ≤ h.maxStates)
    (hlo : -1 ≤ h.currentIndex) (hhi : h.currentIndex < (h.states.length : ℤ)) :
    (h.saveState m).currentIndex = ((h.saveState m).states.length : ℤ) - 1 ∧
    HistoryManager.jsState (h.saveState m).states (h.saveState m).currentIndex =
      m.toJSON ∧
    ∀ m' : LayerManager, (h.saveState m).redo m' = ((h.saveState m), m', false) := by
  by_cases hcap : h.maxStates < (h.currentIndex + 1).toNat + 1
  · rw [saveState_evict h m hr hlo hhi hmax hcap]
    have ht1 : 1 ≤ (h.currentIndex + 1).toNat := by omega
    have hlen : ((h.states.take (h.currentIndex + 1).toNat).drop 1 ++ [m.toJSON]).length =
        (h.currentIndex + 1).toNat := by
      simp only [List.length_append, List.length_drop, List.length_take,
        List.length_cons, List.length_nil]
      omega
    refine ⟨?_, ?_, ?_⟩
    · dsimp only
      rw [hlen]
      omega
    · dsimp only
      exact jsState_concat _ _ _ (by omega)
        (by simp only [List.length_drop, List.length_take]; omega)
    · intro m'
      unfold HistoryManager.redo
      rw [if_neg (by dsimp only; rw [hlen]; omega)]
  · rw [saveState_no_evict h m hr hlo hhi (by omega)]
    have hlen : (h.states.take (h.currentIndex + 1).toNat ++ [m.toJSON]).length =
        (h.currentIndex + 1).toNat + 1 := by
      simp only [List.length_append, List.length_take, List.length_cons, List.length_nil]
      omega
    refine ⟨?_, ?_, ?_⟩
    · dsimp only
      rw [hlen]
      omega
    · dsimp only
      exact jsState_concat _ _ _ (by omega) (by simp only [List.length_take]; omega)
    · intro m'
      unfold HistoryManager.redo
      rw [if_neg (by dsimp only; rw [hlen]; omega)]

/-- Witness for C10 at a concrete saveState on `hmThree`. -/
theorem saveState_cursor_points_at_latest_witness :
    hmThree.isRestoring = false ∧ 1 ≤ hmThree.maxStates ∧
    -1 ≤ hmThree.currentIndex ∧ hmThree.currentIndex < (hmThree.states.length : ℤ) ∧
    ((hmThree.saveState lmBg).currentIndex =
      ((hmThree.saveState lmBg).states.length : ℤ) - 1 ∧
     HistoryManager.jsState (hmThree.saveState lmBg).states
       (hmThree.saveState lmBg).currentIndex = lmBg.toJSON ∧
     ∀ m' : LayerManager, (hmThree.saveState lmBg).redo m' =
       ((hmThree.saveState lmBg), m', false)) :=
  ⟨rfl, by decide, by decide, by decide,
   saveState_cursor_points_at_latest hmThree lmBg rfl (by decide) (by decide) (by decide)⟩

/-- C6 counterexample: on an eviction push the unchanged cursor index does
NOT keep referring to the snapshot it referred to before (shifted one
position toward the front); it refers to the newly appended snapshot.  At
`hmFull` (bound 2, cursor on the last snapshot) a push evicts the oldest
snapshot, the cursor index stays 1, but the snapshot found at the cursor
changes from the old latest to the new one. -/
theorem evicting_push_changes_snapshot_at_cursor :
    (hmFull.saveState lmThird).currentIndex = hmFull.currentIndex ∧
    HistoryManager.jsState (hmFull.saveState lmThird).states
        (hmFull.saveState lmThird).currentIndex ≠
      HistoryManager.jsState hmFull.states hmFull.currentIndex := by
  have h1 : HistoryManager.jsState (hmFull.saveState lmThird).states
      (hmFull.saveState lmThird).currentIndex = lmThird.toJSON := rfl
  have h2 : HistoryManager.jsState hmFull.states hmFull.currentIndex = jsonTwo := rfl
  refine ⟨rfl, ?_⟩
  rw [h1, h2]
  intro hEq
  have hnames : lmThird.toJSON.layers.map LayerJson.name =
      jsonTwo.layers.map LayerJson.name :=
    congrArg (fun j => j.layers.map LayerJson.name) hEq
  revert hnames
  decide

/-- C6 (amended): the number of retained snapshots never exceeds
`maxStates` in any reachable state; when a push at a full history would
exceed the bound, exactly the oldest snapshot (`shift()`) is evicted and
the cursor index is not advanced — which, after the shift, leaves the
cursor on the NEWLY appended snapshot (the snapshot it previously pointed
at moves one position toward the front, to cursor − 1). -/
theorem history_bounded_and_eviction_behavior :
    (∀ s : HistoryManager × LayerManager, ReachableHist s →
      s.1.states.length ≤ s.1.maxStates) ∧
    (∀ (h : HistoryManager) (m : LayerManager),
      h.isRestoring = false → 1 ≤ h.maxStates →
      h.currentIndex = (h.states.length : ℤ) - 1 →
      h.states.length = h.maxStates →
      (h.saveState m).states = h.states.drop 1 ++ [m.toJSON] ∧
      (h.saveState m).currentIndex = h.currentIndex ∧
      (h.saveState m).states.length = h.maxStates ∧
      HistoryManager.jsState (h.saveState m).states
        (h.saveState m).currentIndex = m.toJSON) := by
  constructor
  · intro s hs
    exact (histInv_of_reachable s hs).2.2.2.1
  · intro h m hr hmax hcur hfull
    rw [saveState_evict h m hr (by omega) (by omega) hmax (by omega)]
    rw [show (h.currentIndex + 1).toNat = h.states.length by omega, List.take_length]
    refine ⟨rfl, rfl, ?_, ?_⟩
    · dsimp only
      simp only [List.length_append, List.length_drop, List.length_cons, List.length_nil]
      omega
    · dsimp only
      exact jsState_concat _ _ _ (by omega) (by simp only [List.length_drop]; omega)

/-- Witness for C6: the bound at the reachable state `histW` and the
eviction behavior at the full history `hmFull`. -/
theorem history_bounded_and_eviction_behavior_witness :
    (ReachableHist histW ∧ histW.1.states.length ≤ histW.1.maxStates) ∧
    (hmFull.isRestoring = false ∧ 1 ≤ hmFull.maxStates ∧
     hmFull.currentIndex = (hmFull.states.length : ℤ) - 1 ∧
     hmFull.states.length = hmFull.maxStates ∧
     ((hmFull.saveState lmBg).states = hmFull.states.drop 1 ++ [lmBg.toJSON] ∧
      (hmFull.saveState lmBg).currentIndex = hmFull.currentIndex ∧
      (hmFull.saveState lmBg).states.length = hmFull.maxStates ∧
      HistoryManager.jsState (hmFull.saveState lmBg).states
        (hmFull.saveState lmBg).currentIndex = lmBg.toJSON)) := by
  have hops : ∀ op ∈ [HistOp.commit lmTwo], HistOpValid op := by
    intro op hop
    rcases List.mem_singleton.mp hop with rfl
    show 1 ≤ lmTwo.layers.length
    decide
  have hreach : ReachableHist histW :=
    ⟨lmBg, 20, [HistOp.commit lmTwo], by decide, by norm_num, hops, rfl⟩
  refine ⟨⟨hreach, history_bounded_and_eviction_behavior.1 histW hreach⟩,
    rfl, by decide, by decide, by decide,
    history_bounded_and_eviction_behavior.2 hmFull lmBg rfl (by decide) (by decide)
      (by decide)⟩

theorem modifyAt_length (ls : List Layer) (n : ℕ) (f : Layer → Layer) :
    (LayerManager.modifyAt ls n f).length = ls.length := by
  unfold LayerManager.modifyAt
  split <;> simp

theorem stackInv_deleteLayer (m : LayerManager) (i : ℤ) (hinv : StackInv m) :
    StackInv (m.deleteLayer i) := by
  obtain ⟨h1, h2, h3⟩ := hinv
  unfold LayerManager.deleteLayer
  by_cases hle : m.layers.length ≤ 1
  · rw [if_pos hle]
    exact ⟨h1, h2, h3⟩
  · rw [if_neg hle]
    have hs : LayerManager.jsSpliceStart i m.layers.length ≤ m.layers.length := by
      unfold LayerManager.jsSpliceStart
      split <;> omega
    have hlen : (LayerManager.spliceRemove1 m.layers i).length =
        LayerManager.jsSpliceStart i m.layers.length +
          (m.layers.length - (LayerManager.jsSpliceStart i m.layers.length + 1)) := by
      unfold LayerManager.spliceRemove1
      simp only [List.length_append, List.length_take, List.length_drop,
        Nat.min_eq_left hs]
    unfold StackInv
    dsimp only
    by_cases hcl : ((LayerManager.spliceRemove1 m.layers i).length : ℤ) ≤ m.activeLayerIndex
    · rw [if_pos hcl]
      refine ⟨by omega, by omega, by omega⟩
    · rw [if_neg hcl]
      refine ⟨by omega, by omega, by omega⟩

/-- C7 counterexample: `fromJSON` on a serialized state with an empty layer
list replaces a valid stack by one with zero layers, violating the
at-least-one-layer invariant (the active index is likewise installed
unchecked).  So deserialize does not preserve the stack invariant. -/
theorem fromJSON_empty_breaks_invariant :
    StackInv lmBg ∧
    ¬ StackInv (lmBg.fromJSON { layers := [], activeLayerIndex := 0 }) := by
  constructor
  · exact ⟨by decide, by decide, by decide⟩
  · intro hbad
    exact absurd hbad.1 (by decide)

/-- C7 (amended): `addLayer`, `deleteLayer`, `toggleLayerVisibility`,
`setActiveLayer` and `mergeDown` all preserve the invariant that at least
one layer exists with a valid active index, and `deleteLayer` on a
one-layer stack is a no-op; `fromJSON`, however, preserves the invariant
only when the input itself has at least one layer and an in-range active
index (as every `toJSON` output of a valid stack does) — it installs the
input's layer list and active index unchecked. -/
theorem stack_ops_preserve_invariant :
    (∀ (m : LayerManager) (i : ℤ) (freshId : ℚ) (name : String), StackInv m →
      StackInv (m.addLayer freshId name) ∧ StackInv (m.deleteLayer i) ∧
      StackInv (m.toggleLayerVisibility i) ∧ StackInv (m.setActiveLayer i) ∧
      StackInv (m.mergeDown i)) ∧
    (∀ (m : LayerManager) (j : LMJson),
      1 ≤ j.layers.length → 0 ≤ jsOrZ j.activeLayerIndex 0 →
      jsOrZ j.activeLayerIndex 0 < (j.layers.length : ℤ) →
      StackInv (m.fromJSON j)) ∧
    (∀ (m : LayerManager) (i : ℤ), m.layers.length = 1 → m.deleteLayer i = m) := by
  refine ⟨?_, ?_, ?_⟩
  · intro m i freshId name hinv
    obtain ⟨h1, h2, h3⟩ := hinv
    refine ⟨?_, stackInv_deleteLayer m i ⟨h1, h2, h3⟩, ?_, ?_, ?_⟩
    · unfold LayerManager.addLayer StackInv
      dsimp only
      refine ⟨by simp, by omega, ?_⟩
      simp only [List.length_append, List.length_cons, List.length_nil]
      omega
    · unfold LayerManager.toggleLayerVisibility
      split
      · exact ⟨by rw [modifyAt_length]; omega, h2, by rw [modifyAt_length]; exact h3⟩
      · exact ⟨h1, h2, h3⟩
    · unfold LayerManager.setActiveLayer
      split
      · next hcond => exact ⟨h1, hcond.1, hcond.2⟩
      · exact ⟨h1, h2, h3⟩
    · unfold LayerManager.mergeDown
      split
      · exact ⟨h1, h2, h3⟩
      · split
        · next upper _ =>
            exact stackInv_deleteLayer _ i
              ⟨by rw [modifyAt_length]; omega, h2, by rw [modifyAt_length]; exact h3⟩
        · exact ⟨h1, h2, h3⟩
  · intro m j hj h0 hlt
    unfold LayerManager.fromJSON
    exact ⟨by simpa using hj, h0, by simpa using hlt⟩
  · intro m i hone
    unfold LayerManager.deleteLayer
    rw [if_pos (by omega)]

/-- Witness for C7 at the two-layer stack, index 0, and a one-layer input
json. -/
theorem stack_ops_preserve_invariant_witness :
    (StackInv lmTwo ∧
     (StackInv (lmTwo.addLayer 7 "L3") ∧ StackInv (lmTwo.deleteLayer 0) ∧
      StackInv (lmTwo.toggleLayerVisibility 0) ∧ StackInv (lmTwo.setActiveLayer 0) ∧
      StackInv (lmTwo.mergeDown 0))) ∧
    (1 ≤ jsonBg.layers.length ∧ 0 ≤ jsOrZ jsonBg.activeLayerIndex 0 ∧
     jsOrZ jsonBg.activeLayerIndex 0 < (jsonBg.layers.length : ℤ) ∧
     StackInv (lmTwo.fromJSON jsonBg)) ∧
    (lmBg.layers.length = 1 ∧ lmBg.deleteLayer 5 = lmBg) := by
  have hinv : StackInv lmTwo := ⟨by decide, by decide, by decide⟩
  refine ⟨⟨hinv, stack_ops_preserve_invariant.1 lmTwo 0 7 "L3" hinv⟩,
    ⟨by decide, by decide, by decide,
     stack_ops_preserve_invariant.2.1 lmTwo jsonBg (by decide) (by decide) (by decide)⟩,
    by decide, stack_ops_preserve_invariant.2.2 lmBg 5 (by decide)⟩

/-- C2 counterexample: deserializing a state whose single layer's raster
data fails to decode still replaces the previously held stack (here the
restored layer list differs from the prior one), and the operation reports
nothing — the completion callback simply never fires and no error value
exists.  The prior `LayerStack` is NOT left intact. -/
theorem fromJSON_clobbers_despite_decode_failure :
    (lmBg.fromJSON jsonCorrupt).layers.map Layer.name ≠ lmBg.layers.map Layer.name ∧
    LayerManager.fromJSONCallbackFired jsonCorrupt = false := by
  exact ⟨by decide, rfl⟩

/-- C2 (amended): `fromJSON` is not atomic and failures are silent: the
result depends only on the input json (the previous stack is discarded
unconditionally), a layer whose raster fails to decode is installed with a
blank canvas, the completion callback never fires, and the json's layer
count and active index are installed as given. -/
theorem fromJSON_not_atomic (m m' : LayerManager) (j : LMJson) (i : ℕ)
    (lj : LayerJson) (hget : j.layers.get? i = some lj)
    (hbad : decodeImage lj.data = none) :
    m.fromJSON j = m'.fromJSON j ∧
    (m.fromJSON j).layers.get? i = some (LayerManager.layerOfJson lj) ∧
    (LayerManager.layerOfJson lj).buffer = [] ∧
    LayerManager.fromJSONCallbackFired j = false ∧
    (m.fromJSON j).layers.length = j.layers.length ∧
    (m.fromJSON j).activeLayerIndex = jsOrZ j.activeLayerIndex 0 := by
  refine ⟨rfl, ?_, ?_, ?_, by simp [LayerManager.fromJSON], rfl⟩
  · show (j.layers.map LayerManager.layerOfJson).get? i = _
    rw [List.get?_map, hget]
    rfl
  · unfold LayerManager.layerOfJson
    rw [hbad]
    rfl
  · unfold LayerManager.fromJSONCallbackFired
    have hmem : lj ∈ j.layers := List.get?_mem hget
    have hall : j.layers.all (fun lj => (decodeImage lj.data).isSome) = false := by
      rw [List.all_eq_false]
      exact ⟨lj, hmem, by rw [hbad]; simp⟩
    rw [hall, Bool.and_false]

/-- Witness for C2 at the corrupt one-layer json. -/
theorem fromJSON_not_atomic_witness :
    jsonCorrupt.layers.get? 0 = some
      { id := 9, name := "Restored", visible := true, opacity := 1,
        locked := false, data := DataURL.corrupt } ∧
    decodeImage DataURL.corrupt = none ∧
    (lmBg.fromJSON jsonCorrupt = lmTwo.fromJSON jsonCorrupt ∧
     LayerManager.fromJSONCallbackFired jsonCorrupt = false) := by
  have h := fromJSON_not_atomic lmBg lmTwo jsonCorrupt 0
    { id := 9, name := "Restored", visible := true, opacity := 1,
      locked := false, data := DataURL.corrupt } rfl rfl
  exact ⟨rfl, rfl, h.1, h.2.2.2.1⟩

/-- C3 counterexample: in the concrete scenario `nodeMid` — pointer-down on
the active unlocked top layer, one pointer-move, then deletion of that
layer mid-capture via the layer panel — pointer-up does NOT discard the
in-progress stroke: the two-sample stroke is committed by `drawStroke` to
the remaining "Background" layer (one segment lands in its journal) and a
history snapshot is saved. -/
theorem stroke_commits_after_midcapture_deletion :
    nodeMid.layerManager.layers.length = 1 ∧
    nodeMid.mouseUp.layerManager.layers.map Layer.name = ["Background"] ∧
    nodeMid.mouseUp.layerManager.layers.map (fun l => l.buffer.length) = [1] ∧
    nodeMid.mouseUp.historyManager.states.length =
      nodeMid.historyManager.states.length + 1 :=
  ⟨rfl, rfl, rfl, rfl⟩

/-- C3 (amended): whenever pointer-up finds `isDrawing` set, some layer at
the active index (locked or not, and possibly a different layer than the
one the capture began on, since deletion clamps the index), and at least 2
captured samples, the stroke IS committed to that layer and a history
snapshot IS saved; the handler never re-checks `locked` and never detects
mid-capture deletion.  A stroke is discarded only when no layer exists at
the active index or fewer than 2 samples were captured. -/
theorem mouseUp_commits_despite_lock_or_deletion (s : NodeState) (layer : Layer)
    (hd : s.isDrawing = true) (ht : s.currentTool = "brush")
    (hl : s.layerManager.getActiveLayer = some layer)
    (h2 : 2 ≤ s.currentStroke.length) :
    (s.mouseUp).layerManager = NodeState.withActiveLayer s.layerManager
      (fun l => l.drawStroke s.currentStroke (hexToRgba s.brushColor s.brushOpacity)
        s.brushSize s.pressureSensitivity) ∧
    (s.mouseUp).historyManager =
      s.historyManager.saveState (s.mouseUp).layerManager ∧
    (s.mouseUp).isDrawing = false ∧
    (s.mouseUp).currentStroke = [] := by
  have hct : NodeState.commitTarget s = NodeState.withActiveLayer s.layerManager
      (fun l => l.drawStroke s.currentStroke (hexToRgba s.brushColor s.brushOpacity)
        s.brushSize s.pressureSensitivity) := by
    unfold NodeState.commitTarget
    rw [if_pos ht]
  unfold NodeState.mouseUp
  rw [hd, hl]
  dsimp only [Bool.not_true]
  rw [if_neg (by simp), if_neg (by omega)]
  exact ⟨hct, by rw [hct], rfl, rfl⟩

/-- Witness for C3's amended theorem: pointer-up over a LOCKED active layer
(the lock acquired mid-capture) still commits the stroke and snapshots. -/
theorem mouseUp_commits_despite_lock_or_deletion_witness :
    nodeLocked.isDrawing = true ∧ nodeLocked.currentTool = "brush" ∧
    nodeLocked.layerManager.getActiveLayer = some lockedLayer ∧
    lockedLayer.locked = true ∧ 2 ≤ nodeLocked.currentStroke.length ∧
    ((nodeLocked.mouseUp).layerManager = NodeState.withActiveLayer
        nodeLocked.layerManager
        (fun l => l.drawStroke nodeLocked.currentStroke
          (hexToRgba nodeLocked.brushColor nodeLocked.brushOpacity)
          nodeLocked.brushSize nodeLocked.pressureSensitivity) ∧
     (nodeLocked.mouseUp).historyManager =
       nodeLocked.historyManager.saveState (nodeLocked.mouseUp).layerManager ∧
     (nodeLocked.mouseUp).isDrawing = false ∧
     (nodeLocked.mouseUp).currentStroke = []) :=
  ⟨rfl, rfl, rfl, rfl, by decide,
   mouseUp_commits_despite_lock_or_deletion nodeLocked lockedLayer rfl rfl rfl
     (by decide)⟩

/-- C1 (export transparency, refuted — see the white background fill at
lines 973-974): exporting a stack whose every layer is fully transparent
yields opaque white at every pixel, not a transparent image; the function
paints `#ffffff` under the layers before blending them. -/
theorem export_of_transparent_stack_is_opaque_white :
    ∀ x y : ℕ,
      exportCanvasWithAlpha [⟨true, 1, fun _ _ => transparentPix⟩] x y = whitePix ∧
      whitePix.a = 1 ∧ transparentPix.a = 0 := by
  intro x y
  refine ⟨?_, rfl, rfl⟩
  show List.foldl _ whitePix _ = whitePix
  simp only [List.foldl_cons, List.foldl_nil, if_pos trivial]
  unfold srcOver transparentPix whitePix
  norm_num

end CBCanvas
